import Mathlib

/-!
Verification of the `jsonldframe2schema` converter
(`src/jsonldframe2schema/converter.py`), a single-pass recursive
transformer from JSON-LD 1.1 frames to JSON Schema documents.

The embedding models the parsed JSON tree as the inductive `Json`
(objects keep insertion order, as Python dicts do; keys of a Python
dict are unique, which theorems assume where it matters via `Nodup`
hypotheses).  Python numbers are modelled by `Json.num : Int`
(the converter only branches on the literal's category; no claim under
study depends on float-specific behaviour).  A Python `raise`
(e.g. the `AttributeError` from calling `.items()` / `.get` on a
non-dict) is modelled by `Option`: `none` means the call raised.

The JSON-LD context expansion engine (`pyld.jsonld.expand`, used only
inside `_parse_context`) is an external collaborator; the resolved
type map it yields is passed in as an association list
`ctx : List (String × Option String)` (property name ↦ type URI,
container tag, or `none`), exactly the shape `_parse_context` returns.
-/

/-- A parsed JSON value (Python object tree). Objects are ordered
association lists, mirroring Python dict insertion order. -/
inductive Json where
  | null
  | bool (b : Bool)
  | num (n : Int)
  | str (s : String)
  | arr (elems : List Json)
  | obj (entries : List (String × Json))

mutual

/-- Decidable equality of JSON values (hand-rolled: the type nests `List`). -/
def decEqJson : (a b : Json) → Decidable (a = b)
  | .null, .null => isTrue rfl
  | .bool x, .bool y =>
    match decEq x y with
    | isTrue h => isTrue (by rw [h])
    | isFalse h => isFalse (by simp [h])
  | .num x, .num y =>
    match decEq x y with
    | isTrue h => isTrue (by rw [h])
    | isFalse h => isFalse (by simp [h])
  | .str x, .str y =>
    match decEq x y with
    | isTrue h => isTrue (by rw [h])
    | isFalse h => isFalse (by simp [h])
  | .arr xs, .arr ys =>
    match decEqJsonList xs ys with
    | isTrue h => isTrue (by rw [h])
    | isFalse h => isFalse (by simp [h])
  | .obj xs, .obj ys =>
    match decEqJsonEntries xs ys with
    | isTrue h => isTrue (by rw [h])
    | isFalse h => isFalse (by simp [h])
  | .null, .bool _ | .null, .num _ | .null, .str _ | .null, .arr _ | .null, .obj _
  | .bool _, .null | .bool _, .num _ | .bool _, .str _ | .bool _, .arr _ | .bool _, .obj _
  | .num _, .null | .num _, .bool _ | .num _, .str _ | .num _, .arr _ | .num _, .obj _
  | .str _, .null | .str _, .bool _ | .str _, .num _ | .str _, .arr _ | .str _, .obj _
  | .arr _, .null | .arr _, .bool _ | .arr _, .num _ | .arr _, .str _ | .arr _, .obj _
  | .obj _, .null | .obj _, .bool _ | .obj _, .num _ | .obj _, .str _ | .obj _, .arr _ =>
    isFalse (by simp)

/-- Decidable equality for lists of JSON values. -/
def decEqJsonList : (a b : List Json) → Decidable (a = b)
  | [], [] => isTrue rfl
  | [], _ :: _ => isFalse (by simp)
  | _ :: _, [] => isFalse (by simp)
  | x :: xs, y :: ys =>
    match decEqJson x y, decEqJsonList xs ys with
    | isTrue h1, isTrue h2 => isTrue (by rw [h1, h2])
    | isFalse h1, _ => isFalse (by simp [h1])
    | _, isFalse h2 => isFalse (by simp [h2])

/-- Decidable equality for object entry lists. -/
def decEqJsonEntries : (a b : List (String × Json)) → Decidable (a = b)
  | [], [] => isTrue rfl
  | [], _ :: _ => isFalse (by simp)
  | _ :: _, [] => isFalse (by simp)
  | (k, v) :: xs, (k', v') :: ys =>
    match decEq k k', decEqJson v v', decEqJsonEntries xs ys with
    | isTrue h1, isTrue h2, isTrue h3 => isTrue (by rw [h1, h2, h3])
    | isFalse h1, _, _ => isFalse (by simp [h1])
    | _, isFalse h2, _ => isFalse (by simp [h2])
    | _, _, isFalse h3 => isFalse (by simp [h3])

end

instance : DecidableEq Json := decEqJson

/-- First-match lookup in an object's entry list (`d[k]` / `k in d`;
Python dict keys are unique, so first-match is exact). -/
def lookupEntries : List (String × Json) → String → Option Json
  | [], _ => none
  | (k', v) :: rest, k => if k' = k then some v else lookupEntries rest k

/-- `k in d` for a Python dict. -/
def hasKey (kvs : List (String × Json)) (k : String) : Bool :=
  (lookupEntries kvs k).isSome

/-- `d[k] = v` on a Python dict: overwrite in place if present, else append. -/
def setKey : List (String × Json) → String → Json → List (String × Json)
  | [], k, v => [(k, v)]
  | (k', v') :: rest, k, v =>
    if k' = k then (k, v) :: rest else (k', v') :: setKey rest k v

/-- Python truthiness of a JSON value (`if x:`). -/
def truthy : Json → Bool
  | .null => false
  | .bool b => b
  | .num n => n != 0
  | .str s => s != ""
  | .arr xs => !xs.isEmpty
  | .obj kvs => !kvs.isEmpty

/-- `_is_empty`: `isinstance(value, dict) and len(value) == 0`. -/
def is_empty : Json → Bool
  | .obj [] => true
  | _ => false

/-- `_is_wildcard`: empty dict or empty list. -/
def is_wildcard (v : Json) : Bool :=
  is_empty v || (match v with | .arr [] => true | _ => false)

/-- `_infer_json_type` (Python float literals, which map to "number",
are outside the `Json` model; no claim depends on them). -/
def infer_json_type : Json → String
  | .bool _ => "boolean"
  | .num _ => "integer"
  | .str _ => "string"
  | .arr _ => "array"
  | .obj _ => "object"
  | .null => "null"

/-- The resolved type map built by `_parse_context` from `@context`:
property name ↦ (type URI / `@container:...` tag / `none`). -/
abbrev Ctx := List (String × Option String)

/-- `context.get(key)` — `none` both when the key is absent and when it
is recorded as `None`. -/
def ctxGet : Ctx → String → Option String
  | [], _ => none
  | (k', t) :: rest, k => if k' = k then t else ctxGet rest k

/-- `FRAMING_KEYWORDS`. -/
def FRAMING_KEYWORDS : List String :=
  ["@context", "@embed", "@explicit", "@requireAll", "@omitDefault", "@graph", "@reverse"]

/-- `TYPE_MAPPINGS`: expanded type URI ↦ JSON Schema fragment. -/
def TYPE_MAPPINGS : List (String × Json) :=
  [("@id", Json.obj [("type", Json.str "string"), ("format", Json.str "uri")]),
   ("http://www.w3.org/2001/XMLSchema#string", Json.obj [("type", Json.str "string")]),
   ("http://www.w3.org/2001/XMLSchema#integer", Json.obj [("type", Json.str "integer")]),
   ("http://www.w3.org/2001/XMLSchema#int", Json.obj [("type", Json.str "integer")]),
   ("http://www.w3.org/2001/XMLSchema#long", Json.obj [("type", Json.str "integer")]),
   ("http://www.w3.org/2001/XMLSchema#boolean", Json.obj [("type", Json.str "boolean")]),
   ("http://www.w3.org/2001/XMLSchema#double", Json.obj [("type", Json.str "number")]),
   ("http://www.w3.org/2001/XMLSchema#float", Json.obj [("type", Json.str "number")]),
   ("http://www.w3.org/2001/XMLSchema#decimal", Json.obj [("type", Json.str "number")]),
   ("http://www.w3.org/2001/XMLSchema#dateTime",
     Json.obj [("type", Json.str "string"), ("format", Json.str "date-time")]),
   ("http://www.w3.org/2001/XMLSchema#date",
     Json.obj [("type", Json.str "string"), ("format", Json.str "date")]),
   ("http://www.w3.org/2001/XMLSchema#time",
     Json.obj [("type", Json.str "string"), ("format", Json.str "time")])]

/-- The four framing flags; each holds the raw JSON value found in the
frame (Python keeps whatever value appears under the keyword). -/
structure Flags where
  embed : Json
  explicit : Json
  requireAll : Json
  omitDefault : Json
deriving DecidableEq

/-- Root defaults: `embed=True, explicit=False, requireAll=False, omitDefault=False`. -/
def defaultFlags : Flags :=
  { embed := Json.bool true, explicit := Json.bool false,
    requireAll := Json.bool false, omitDefault := Json.bool false }

/-- Nested-flag resolution in `_process_nested_frame`: the nested
frame's own keyword value if present, else the parent's resolved value. -/
def extractNestedFlags (kvs : List (String × Json)) (parent : Flags) : Flags :=
  { embed := (lookupEntries kvs "@embed").getD parent.embed,
    explicit := (lookupEntries kvs "@explicit").getD parent.explicit,
    requireAll := (lookupEntries kvs "@requireAll").getD parent.requireAll,
    omitDefault := (lookupEntries kvs "@omitDefault").getD parent.omitDefault }

/-- `_extract_framing_flags`: root flags with hard-coded defaults. -/
def extract_framing_flags (kvs : List (String × Json)) : Flags :=
  extractNestedFlags kvs defaultFlags

/-- `_process_type_constraint`. -/
def process_type_constraint : Json → Json
  | .str s => Json.obj [("const", Json.str s)]
  | .arr [] => Json.obj [("type", Json.str "string")]
  | .arr [x] => Json.obj [("const", x)]
  | .arr xs => Json.obj [("enum", Json.arr xs)]
  | _ => Json.obj [("type", Json.str "string")]

/-- `{"type": "string", "format": "uri"}`. -/
def uriSchema : Json :=
  Json.obj [("type", Json.str "string"), ("format", Json.str "uri")]

/-- `_process_id_constraint`. -/
def process_id_constraint : Json → Json
  | .str s => Json.obj [("const", Json.str s)]
  | .obj [] => uriSchema
  | .obj kvs =>
    match h : lookupEntries kvs "@id" with
    | some x => process_id_constraint x
    | none => uriSchema
  | _ => uriSchema
termination_by v => sizeOf v
decreasing_by
  have hlt : ∀ (l : List (String × Json)) (key : String) (v : Json),
      lookupEntries l key = some v → sizeOf v < sizeOf l := by
    intro l key v hl
    induction l with
    | nil => simp [lookupEntries] at hl
    | cons hd tl ih =>
      obtain ⟨a, b⟩ := hd
      unfold lookupEntries at hl
      split at hl
      · cases hl
        simp
        omega
      · have := ih hl
        simp
        omega
  have := hlt _ _ _ h
  simp
  omega

/-- `_should_be_required` (the `key` argument is unused in the source too). -/
def should_be_required (value : Json) (flags : Flags) : Bool :=
  if truthy flags.requireAll then true
  else if truthy flags.omitDefault then false
  else if is_empty value then true
  else match value with
    | .obj _ => true
    | .arr _ => true
    | _ => false

/-- The language-map container schema emitted by `_infer_type_from_context`. -/
def languageContainerSchema : Json :=
  Json.obj [("oneOf", Json.arr
    [Json.obj [("type", Json.str "string")],
     Json.obj [("type", Json.str "object"),
       ("patternProperties", Json.obj
         [("^[a-z]{2}(-[A-Z]{2})?$", Json.obj [("type", Json.str "string")])]),
       ("additionalProperties", Json.bool false)]])]

/-- The four container translations of `_infer_type_from_context`
(`none` for an unrecognized container token). -/
def containerSchema (c : String) : Option Json :=
  if c = "@language" then some languageContainerSchema
  else if c = "@index" then
    some (Json.obj [("type", Json.str "object"),
      ("additionalProperties", Json.obj [("type", Json.str "string")])])
  else if c = "@set" then
    some (Json.obj [("type", Json.str "array"), ("uniqueItems", Json.bool true)])
  else if c = "@list" then
    some (Json.obj [("type", Json.str "array")])
  else none

/-- The `TYPE_MAPPINGS` table lookup at the end of
`_infer_type_from_context` (the deep copy of the matched template is
the identity under value semantics), falling back to `{type: "string"}`. -/
def typeMappingOrString (ct : String) : Json :=
  match lookupEntries TYPE_MAPPINGS ct with
  | some s => s
  | none => Json.obj [("type", Json.str "string")]

/-- The `some` arm of `_infer_type_from_context`: container tags first,
then the type-mapping table. -/
def inferFromTypeName (ct : String) : Json :=
  if ct.startsWith "@container:" then
    match containerSchema (ct.replace "@container:" "") with
    | some s => s
    | none => typeMappingOrString ct
  else typeMappingOrString ct

/-- `_infer_type_from_context`. -/
def infer_type_from_context (contextType : Option String) : Json :=
  match contextType with
  | none => Json.obj [("type", Json.str "string")]
  | some ct => inferFromTypeName ct

/-- The `@language` constraint step of `_process_value_object_frame`:
a string adds a `const`, the empty pattern adds `{type: "string"}`,
anything else is silently skipped. -/
def valueLangProps (kvs base : List (String × Json)) : List (String × Json) :=
  match lookupEntries kvs "@language" with
  | some (Json.str s) => base ++ [("@language", Json.obj [("const", Json.str s)])]
  | some (Json.obj []) => base ++ [("@language", Json.obj [("type", Json.str "string")])]
  | _ => base

/-- The `@type` constraint step of `_process_value_object_frame`, with
the same silent skip for other shapes. -/
def valueTypeProps (kvs base : List (String × Json)) : List (String × Json) :=
  match lookupEntries kvs "@type" with
  | some (Json.str s) => base ++ [("@type", Json.obj [("const", Json.str s)])]
  | some (Json.obj []) => base ++ [("@type", Json.obj [("type", Json.str "string")])]
  | _ => base

/-- `_process_value_object_frame`: `oneOf[{type: string}, value-object
schema]`, the value-object branch requiring exactly `@value`. -/
def process_value_object_frame (kvs : List (String × Json)) : Json :=
  Json.obj [("oneOf", Json.arr
    [Json.obj [("type", Json.str "string")],
     Json.obj [("type", Json.str "object"),
       ("properties", Json.obj
         (valueTypeProps kvs (valueLangProps kvs [("@value", Json.obj [])]))),
       ("required", Json.arr [Json.str "@value"])]])]

/-- The reference (non-embedded) schema emitted when the resolved embed
flag is `False` or `"@never"`. -/
def refSchema : Json :=
  Json.obj [("oneOf", Json.arr
    [Json.obj [("type", Json.str "string"), ("format", Json.str "uri")],
     Json.obj [("type", Json.str "object"),
       ("properties", Json.obj
         [("@id", Json.obj [("type", Json.str "string"), ("format", Json.str "uri")])]),
       ("required", Json.arr [Json.str "@id"]),
       ("additionalProperties", Json.bool false)]])]

/-- The resolved-embed test `embed_value is False or embed_value == "@never"`.
(Python `is False` is identity with the bool singleton, so `0` does not match.) -/
def embedNever : Json → Bool
  | .bool false => true
  | .str s => s == "@never"
  | _ => false

/-- `schema["default"] = d` on a schema fragment. -/
def setDefault (schema : Json) (d : Json) : Json :=
  match schema with
  | .obj kvs => .obj (setKey kvs "default" d)
  | s => s

/-- The `properties` contribution of the `@type` branch of
`_process_frame_object`. -/
def typePropsOf (frame : List (String × Json)) : List (String × Json) :=
  match lookupEntries frame "@type" with
  | some tv => [("@type", process_type_constraint tv)]
  | none => []

/-- The `required` contribution of the `@type` branch: required unless
the frame's `@type` value is a wildcard. -/
def typeReqOf (frame : List (String × Json)) : List Json :=
  match lookupEntries frame "@type" with
  | some tv => if is_wildcard tv then [] else [Json.str "@type"]
  | none => []

/-- The `properties` contribution of the `@id` branch. -/
def idPropsOf (frame : List (String × Json)) : List (String × Json) :=
  match lookupEntries frame "@id" with
  | some iv => [("@id", process_id_constraint iv)]
  | none => []

/-- The `required` contribution of the `@id` branch: required unless
the frame's `@id` value is the empty pattern. -/
def idReqOf (frame : List (String × Json)) : List Json :=
  match lookupEntries frame "@id" with
  | some iv => if is_empty iv then [] else [Json.str "@id"]
  | none => []

/-- The `@default`-without-value-markers test in `_process_property`:
`"@default" in value and not ("@value" in value or "@type" in value or
"@id" in value)`. -/
def has_default_only (kvs : List (String × Json)) : Bool :=
  hasKey kvs "@default" && !(hasKey kvs "@value" || hasKey kvs "@type" || hasKey kvs "@id")

/-- The two `continue` guards of the property loop in
`_process_frame_object`: framing keywords and the already-handled
`@type` / `@id` are skipped. -/
def skipKey (k : String) : Bool :=
  FRAMING_KEYWORDS.contains k || k == "@type" || k == "@id"

/-- Assembling one node schema from its accumulated pieces, preserving
Python dict insertion order (`type`, then `properties` / `required`
when non-empty, then `additionalProperties`). -/
def mkNodeSchema (properties : List (String × Json)) (required : List Json)
    (flags : Flags) : Json :=
  Json.obj ([("type", Json.str "object")]
    ++ (if properties.isEmpty then [] else [("properties", Json.obj properties)])
    ++ (if required.isEmpty then [] else [("required", Json.arr required)])
    ++ [("additionalProperties", Json.bool (!truthy flags.explicit))])

mutual

/-- `_process_frame_object` (the Node Processor): one frame object into
one node schema.  Returns `none` when the Python code would raise. -/
def process_frame_object (frame : List (String × Json)) (flags : Flags) (ctx : Ctx) :
    Option Json :=
  match h : lookupEntries frame "@reverse" with
  | some rv =>
    match process_reverse_property rv flags ctx with
    | some rs =>
      match process_properties_loop frame flags ctx with
      | some (loopProps, loopReq) =>
        some (mkNodeSchema
          (typePropsOf frame ++ idPropsOf frame ++ [("@reverse", rs)] ++ loopProps)
          (typeReqOf frame ++ idReqOf frame ++ [Json.str "@reverse"] ++ loopReq) flags)
      | none => none
    | none => none
  | none =>
    match process_properties_loop frame flags ctx with
    | some (loopProps, loopReq) =>
      some (mkNodeSchema (typePropsOf frame ++ idPropsOf frame ++ loopProps)
        (typeReqOf frame ++ idReqOf frame ++ loopReq) flags)
    | none => none
termination_by (sizeOf frame, 3)
decreasing_by
  · have hlt : ∀ (l : List (String × Json)) (key : String) (v : Json),
        lookupEntries l key = some v → sizeOf v < sizeOf l := by
      intro l key v hl
      induction l with
      | nil => simp [lookupEntries] at hl
      | cons hd tl ih =>
        obtain ⟨a, b⟩ := hd
        unfold lookupEntries at hl
        split at hl
        · cases hl
          simp
          omega
        · have := ih hl
          simp
          omega
    have := hlt _ _ _ h
    simp_wf
    omega
  · simp_wf
    omega
  · simp_wf
    omega

/-- The `for key, value in frame.items()` loop of `_process_frame_object`:
accumulates the non-keyword `properties` entries and their `required`
names, in frame order. -/
def process_properties_loop (entries : List (String × Json)) (flags : Flags) (ctx : Ctx) :
    Option (List (String × Json) × List Json) :=
  match entries with
  | [] => some ([], [])
  | (k, v) :: rest =>
    if skipKey k then
      process_properties_loop rest flags ctx
    else
      match process_property k v flags ctx with
      | some ps =>
        match process_properties_loop rest flags ctx with
        | some (props, reqs) =>
          some ((k, ps) :: props,
            (if should_be_required v flags then [Json.str k] else []) ++ reqs)
        | none => none
      | none => none
termination_by (sizeOf entries, 2)
decreasing_by
  · simp_wf
    omega
  · simp_wf
    omega
  · simp_wf
    omega

/-- `_process_property` (the Property Dispatcher).  The first arm is
the `_is_empty` test (an empty dict); the remaining arms follow the
source's `isinstance` dispatch order. -/
def process_property (key : String) (value : Json) (flags : Flags) (ctx : Ctx) :
    Option Json :=
  match value with
  | .obj [] => some (infer_type_from_context (ctxGet ctx key))
  | .str _ | .num _ | .bool _ =>
    some (Json.obj [("type", Json.str (infer_json_type value)), ("default", value)])
  | .arr xs => process_array_frame xs flags ctx
  | .obj kvs =>
    if has_default_only kvs then
      some (setDefault (infer_type_from_context (ctxGet ctx key))
        ((lookupEntries kvs "@default").getD Json.null))
    else if hasKey kvs "@value" then
      some (process_value_object_frame kvs)
    else
      process_nested_frame (Json.obj kvs) flags ctx
  | .null => some (Json.obj [])
termination_by (sizeOf value, 4)
decreasing_by
  · simp_wf
    omega
  · simp_wf
    omega

/-- `_process_array_frame`. -/
def process_array_frame (xs : List Json) (flags : Flags) (ctx : Ctx) : Option Json :=
  match xs with
  | [] => some (Json.obj [("type", Json.str "array"), ("items", Json.obj [])])
  | x :: _ =>
    match x with
    | .obj kvs =>
      match process_nested_frame (Json.obj kvs) flags ctx with
      | some s => some (Json.obj [("type", Json.str "array"), ("items", s)])
      | none => none
    | _ =>
      some (Json.obj [("type", Json.str "array"),
        ("items", Json.obj [("type", Json.str (infer_json_type x))])])
termination_by (sizeOf xs, 0)
decreasing_by
  simp_wf
  omega

/-- `_process_nested_frame`: resolve nested flags, then either the
reference schema (embed `False`/`"@never"`) or full recursion.
A non-dict argument raises in Python (`.get` on a non-dict), hence `none`. -/
def process_nested_frame (v : Json) (flags : Flags) (ctx : Ctx) : Option Json :=
  match v with
  | .obj kvs =>
    if embedNever (extractNestedFlags kvs flags).embed then some refSchema
    else process_frame_object kvs (extractNestedFlags kvs flags) ctx
  | _ => none
termination_by (sizeOf v, 1)
decreasing_by
  simp_wf
  omega

/-- `_process_reverse_property`.  A non-dict `@reverse` value raises in
Python (`.items()` on a non-dict), hence `none`. -/
def process_reverse_property (v : Json) (flags : Flags) (ctx : Ctx) : Option Json :=
  match v with
  | .obj kvs =>
    match reverse_properties_loop kvs flags ctx with
    | some props => some (Json.obj [("type", Json.str "object"), ("properties", Json.obj props)])
    | none => none
  | _ => none
termination_by (sizeOf v, 0)
decreasing_by
  simp_wf
  omega

/-- The loop of `_process_reverse_property`: each reverse property
becomes `oneOf[itemSchema, {type: array, items: itemSchema}]`. -/
def reverse_properties_loop (kvs : List (String × Json)) (flags : Flags) (ctx : Ctx) :
    Option (List (String × Json)) :=
  match kvs with
  | [] => some []
  | (k, pv) :: rest =>
    match process_nested_frame pv flags ctx with
    | some ps =>
      match reverse_properties_loop rest flags ctx with
      | some rest' =>
        some ((k, Json.obj [("oneOf", Json.arr
          [ps, Json.obj [("type", Json.str "array"), ("items", ps)]])]) :: rest')
      | none => none
    | none => none
termination_by (sizeOf kvs, 2)
decreasing_by
  · simp_wf
    omega
  · simp_wf
    omega

end

/-- The entries of an object value (`[]` for non-objects). -/
def jsonEntries : Json → List (String × Json)
  | .obj kvs => kvs
  | _ => []

/-- Python `"@context" in x`: key test for dicts, element equality for
lists (a string equals only a string), substring test for strings;
`none` models the `TypeError` raised on non-iterables. -/
def jsonContainsKey (v : Json) (k : String) : Option Bool :=
  match v with
  | .obj kvs => some (hasKey kvs k)
  | .arr xs => some (xs.any (fun x => match x with | .str s => s == k | _ => false))
  | .str s => some ((s.splitOn k).length != 1)
  | _ => none

/-- The choice of effective frame content when `@graph` is present: a
non-empty array contributes its head, a dict is taken as is, anything
else (including the empty array) leaves the outer frame in place. -/
def effectiveFrameContent (frame : List (String × Json)) (gv : Json) : Json :=
  match gv with
  | .arr (x :: _) => x
  | .obj kvs => Json.obj kvs
  | _ => Json.obj frame

/-- The outer-`@context` re-attachment step (a fresh mapping with
`@context` first, then the inner entries).  `none` models the
`TypeError` Python raises when the content is not iterable at the `in`
test, or not a mapping at the `{**frame_content}` unpacking. -/
def attachContext (frame : List (String × Json)) (fc : Json) : Option Json :=
  match jsonContainsKey fc "@context" with
  | none => none
  | some b =>
    if !b && hasKey frame "@context" then
      match fc with
      | .obj kvs =>
        some (Json.obj
          (("@context", (lookupEntries frame "@context").getD Json.null) :: kvs))
      | _ => none
    else some fc

/-- The `@graph` unwrapping step at the top of `convert`. -/
def graphUnwrap (frame : List (String × Json)) : Option Json :=
  match lookupEntries frame "@graph" with
  | none => some (Json.obj frame)
  | some gv => attachContext frame (effectiveFrameContent frame gv)

/-- The output envelope of `convert`: either `{$schema, **nodeSchema}`
(graph-only mode) or the full `@context`/`@graph` document schema. -/
def assembleDocument (graphOnly : Bool) (schemaVersion : String) (gis : Json) : Json :=
  if graphOnly then
    Json.obj (("$schema", Json.str schemaVersion) :: jsonEntries gis)
  else
    Json.obj [("$schema", Json.str schemaVersion),
      ("type", Json.str "object"),
      ("properties", Json.obj
        [("@context", Json.obj []),
         ("@graph", Json.obj [("type", Json.str "array"), ("items", gis)])]),
      ("required", Json.arr [Json.str "@context", Json.str "@graph"]),
      ("additionalProperties", Json.bool true)]

/-- `convert` (the Document Assembler).  The resolved type map `ctx`
stands for what `_extract_context` obtains from the effective frame's
`@context` through the external `pyld` expansion collaborator
(`_parse_context` catches that collaborator's errors, yielding an
empty map, so it contributes no failure mode of its own). -/
def convert (graphOnly : Bool) (schemaVersion : String) (ctx : Ctx)
    (frame : List (String × Json)) : Option Json :=
  match graphUnwrap frame with
  | none => none
  | some (.obj kvs) =>
    match process_frame_object kvs (extract_framing_flags kvs) ctx with
    | some gis => some (assembleDocument graphOnly schemaVersion gis)
    | none => none
  | some _ => none

/-- The `properties` entries of a produced node schema. -/
def schemaPropsEntries (s : Json) : List (String × Json) :=
  match lookupEntries (jsonEntries s) "properties" with
  | some (.obj kvs) => kvs
  | _ => []

/-- The `required` list of a produced node schema (`[]` when absent). -/
def schemaRequired (s : Json) : List Json :=
  match lookupEntries (jsonEntries s) "required" with
  | some (.arr xs) => xs
  | _ => []

/-- The `additionalProperties` entry of a produced node schema. -/
def schemaAdditional (s : Json) : Option Json :=
  lookupEntries (jsonEntries s) "additionalProperties"

/-- The per-property requiredness precedence rule exactly as the
specification words it (spec §4.5), kept separate from the code's
`should_be_required` so the two can be compared. -/
def requiredPerSpec (v : Json) (flags : Flags) : Bool :=
  if truthy flags.requireAll then true
  else if truthy flags.omitDefault then false
  else if v = Json.obj [] then true
  else
    match v with
    | .obj _ => true
    | .arr _ => true
    | _ => false

/-! ### Derived step equations for the mutual recursion

Restatements of the recursion's defining equations, proved once from
the well-founded equations so that concrete frames can be evaluated by
rewriting. -/

theorem process_properties_loop_nil (flags : Flags) (ctx : Ctx) :
    process_properties_loop [] flags ctx = some ([], []) := by
  rw [process_properties_loop.eq_def]

theorem process_properties_loop_cons (k : String) (v : Json)
    (rest : List (String × Json)) (flags : Flags) (ctx : Ctx) :
    process_properties_loop ((k, v) :: rest) flags ctx =
      if skipKey k then process_properties_loop rest flags ctx
      else
        match process_property k v flags ctx with
        | some ps =>
          match process_properties_loop rest flags ctx with
          | some (props, reqs) =>
            some ((k, ps) :: props,
              (if should_be_required v flags then [Json.str k] else []) ++ reqs)
          | none => none
        | none => none := by
  rw [process_properties_loop.eq_def]

theorem process_property_empty_obj (key : String) (flags : Flags) (ctx : Ctx) :
    process_property key (Json.obj []) flags ctx =
      some (infer_type_from_context (ctxGet ctx key)) := by
  rw [process_property.eq_def]

theorem process_property_str (key s : String) (flags : Flags) (ctx : Ctx) :
    process_property key (Json.str s) flags ctx =
      some (Json.obj [("type", Json.str "string"), ("default", Json.str s)]) := by
  rw [process_property.eq_def]
  rfl

theorem process_property_num (key : String) (n : Int) (flags : Flags) (ctx : Ctx) :
    process_property key (Json.num n) flags ctx =
      some (Json.obj [("type", Json.str "integer"), ("default", Json.num n)]) := by
  rw [process_property.eq_def]
  rfl

theorem process_property_bool (key : String) (b : Bool) (flags : Flags) (ctx : Ctx) :
    process_property key (Json.bool b) flags ctx =
      some (Json.obj [("type", Json.str "boolean"), ("default", Json.bool b)]) := by
  rw [process_property.eq_def]
  rfl

theorem process_property_null (key : String) (flags : Flags) (ctx : Ctx) :
    process_property key Json.null flags ctx = some (Json.obj []) := by
  rw [process_property.eq_def]

theorem process_property_arr (key : String) (xs : List Json) (flags : Flags) (ctx : Ctx) :
    process_property key (Json.arr xs) flags ctx = process_array_frame xs flags ctx := by
  rw [process_property.eq_def]

theorem process_property_obj_cons (key : String) (e : String × Json)
    (rest : List (String × Json)) (flags : Flags) (ctx : Ctx) :
    process_property key (Json.obj (e :: rest)) flags ctx =
      if has_default_only (e :: rest) then
        some (setDefault (infer_type_from_context (ctxGet ctx key))
          ((lookupEntries (e :: rest) "@default").getD Json.null))
      else if hasKey (e :: rest) "@value" then
        some (process_value_object_frame (e :: rest))
      else
        process_nested_frame (Json.obj (e :: rest)) flags ctx := by
  obtain ⟨a, b⟩ := e
  rw [process_property.eq_def]

theorem process_array_frame_nil (flags : Flags) (ctx : Ctx) :
    process_array_frame [] flags ctx =
      some (Json.obj [("type", Json.str "array"), ("items", Json.obj [])]) := by
  rw [process_array_frame.eq_def]

theorem process_array_frame_cons (x : Json) (rest : List Json) (flags : Flags) (ctx : Ctx) :
    process_array_frame (x :: rest) flags ctx =
      match x with
      | .obj kvs =>
        match process_nested_frame (Json.obj kvs) flags ctx with
        | some s => some (Json.obj [("type", Json.str "array"), ("items", s)])
        | none => none
      | _ =>
        some (Json.obj [("type", Json.str "array"),
          ("items", Json.obj [("type", Json.str (infer_json_type x))])]) := by
  rw [process_array_frame.eq_def]

theorem process_nested_frame_obj (kvs : List (String × Json)) (flags : Flags) (ctx : Ctx) :
    process_nested_frame (Json.obj kvs) flags ctx =
      if embedNever (extractNestedFlags kvs flags).embed then some refSchema
      else process_frame_object kvs (extractNestedFlags kvs flags) ctx := by
  rw [process_nested_frame.eq_def]

theorem process_nested_frame_str (s : String) (flags : Flags) (ctx : Ctx) :
    process_nested_frame (Json.str s) flags ctx = none := by
  rw [process_nested_frame.eq_def]

theorem process_reverse_property_obj (kvs : List (String × Json)) (flags : Flags) (ctx : Ctx) :
    process_reverse_property (Json.obj kvs) flags ctx =
      match reverse_properties_loop kvs flags ctx with
      | some props =>
        some (Json.obj [("type", Json.str "object"), ("properties", Json.obj props)])
      | none => none := by
  rw [process_reverse_property.eq_def]

theorem process_reverse_property_str (s : String) (flags : Flags) (ctx : Ctx) :
    process_reverse_property (Json.str s) flags ctx = none := by
  rw [process_reverse_property.eq_def]

theorem reverse_properties_loop_nil (flags : Flags) (ctx : Ctx) :
    reverse_properties_loop [] flags ctx = some [] := by
  rw [reverse_properties_loop.eq_def]

theorem reverse_properties_loop_cons (k : String) (pv : Json)
    (rest : List (String × Json)) (flags : Flags) (ctx : Ctx) :
    reverse_properties_loop ((k, pv) :: rest) flags ctx =
      match process_nested_frame pv flags ctx with
      | some ps =>
        match reverse_properties_loop rest flags ctx with
        | some rest' =>
          some ((k, Json.obj [("oneOf", Json.arr
            [ps, Json.obj [("type", Json.str "array"), ("items", ps)]])]) :: rest')
        | none => none
      | none => none := by
  rw [reverse_properties_loop.eq_def]

theorem process_frame_object_eq_no_reverse {frame : List (String × Json)}
    {flags : Flags} {ctx : Ctx} (h : lookupEntries frame "@reverse" = none) :
    process_frame_object frame flags ctx =
      match process_properties_loop frame flags ctx with
      | some (lp, lr) =>
        some (mkNodeSchema (typePropsOf frame ++ idPropsOf frame ++ lp)
          (typeReqOf frame ++ idReqOf frame ++ lr) flags)
      | none => none := by
  rw [process_frame_object.eq_def]
  split
  · rename_i rv hrv
    rw [h] at hrv
    exact Option.noConfusion hrv
  · rfl

theorem process_id_constraint_obj_cons (e : String × Json) (rest : List (String × Json)) :
    process_id_constraint (Json.obj (e :: rest)) =
      match lookupEntries (e :: rest) "@id" with
      | some x => process_id_constraint x
      | none => uriSchema := by
  obtain ⟨a, b⟩ := e
  rw [process_id_constraint.eq_def]
  split
  · rename_i x hx
    exact absurd hx (by simp)
  · rename_i hx
    exact absurd hx (by simp)
  · rename_i kvs hne heq
    injection heq with h2
    subst h2
    split
    · rename_i v hv
      rw [hv]
    · rename_i hv
      rw [hv]
  · rename_i hstr hemp hobj
    exact absurd rfl (hobj _)

theorem process_frame_object_eq_reverse {frame : List (String × Json)}
    {flags : Flags} {ctx : Ctx} {rv : Json}
    (h : lookupEntries frame "@reverse" = some rv) :
    process_frame_object frame flags ctx =
      match process_reverse_property rv flags ctx with
      | some rs =>
        match process_properties_loop frame flags ctx with
        | some (lp, lr) =>
          some (mkNodeSchema
            (typePropsOf frame ++ idPropsOf frame ++ [("@reverse", rs)] ++ lp)
            (typeReqOf frame ++ idReqOf frame ++ [Json.str "@reverse"] ++ lr) flags)
        | none => none
      | none => none := by
  rw [process_frame_object.eq_def]
  split
  · rename_i rv' hrv
    rw [h] at hrv
    cases hrv
    rfl
  · rename_i hrv
    rw [h] at hrv
    exact Option.noConfusion hrv

/-! ### Basic lemmas about the embedding -/

theorem lookupEntries_append (xs ys : List (String × Json)) (k : String) :
    lookupEntries (xs ++ ys) k = (lookupEntries xs k).or (lookupEntries ys k) := by
  induction xs with
  | nil => simp [lookupEntries]
  | cons hd tl ih =>
    obtain ⟨k', v'⟩ := hd
    by_cases hk : k' = k <;> simp [lookupEntries, hk, ih]

theorem hasKey_append (xs ys : List (String × Json)) (k : String) :
    hasKey (xs ++ ys) k = (hasKey xs k || hasKey ys k) := by
  unfold hasKey
  rw [lookupEntries_append]
  cases lookupEntries xs k <;> simp

theorem hasKey_iff_mem {kvs : List (String × Json)} {k : String} :
    hasKey kvs k = true ↔ k ∈ kvs.map Prod.fst := by
  induction kvs with
  | nil => simp [hasKey, lookupEntries]
  | cons hd tl ih =>
    obtain ⟨k', v'⟩ := hd
    unfold hasKey lookupEntries
    unfold hasKey at ih
    by_cases hk : k' = k
    · simp [hk]
    · have hk' : ¬ k = k' := fun h => hk h.symm
      simp [hk, hk', ih]

theorem lookupEntries_mem {kvs : List (String × Json)} {k : String} {v : Json}
    (h : lookupEntries kvs k = some v) : (k, v) ∈ kvs := by
  induction kvs with
  | nil => simp [lookupEntries] at h
  | cons hd tl ih =>
    obtain ⟨k', v'⟩ := hd
    unfold lookupEntries at h
    split at h
    · cases h
      subst_vars
      exact List.mem_cons_self _ _
    · exact List.mem_cons_of_mem _ (ih h)

/-- The code's requiredness decision coincides with the spec's
precedence chain. -/
theorem should_be_required_eq_spec (v : Json) (flags : Flags) :
    should_be_required v flags = requiredPerSpec v flags := by
  unfold should_be_required requiredPerSpec is_empty
  cases v <;> simp <;> split <;> simp_all

theorem schemaPropsEntries_mkNodeSchema (props : List (String × Json))
    (reqs : List Json) (flags : Flags) :
    schemaPropsEntries (mkNodeSchema props reqs flags) = props := by
  unfold mkNodeSchema schemaPropsEntries jsonEntries
  cases hp : props.isEmpty <;> cases hr : reqs.isEmpty <;>
    simp_all [lookupEntries, List.isEmpty_iff]

theorem schemaRequired_mkNodeSchema (props : List (String × Json))
    (reqs : List Json) (flags : Flags) :
    schemaRequired (mkNodeSchema props reqs flags) = reqs := by
  unfold mkNodeSchema schemaRequired jsonEntries
  cases hp : props.isEmpty <;> cases hr : reqs.isEmpty <;>
    simp_all [lookupEntries, List.isEmpty_iff]

theorem schemaAdditional_mkNodeSchema (props : List (String × Json))
    (reqs : List Json) (flags : Flags) :
    schemaAdditional (mkNodeSchema props reqs flags) =
      some (Json.bool (!truthy flags.explicit)) := by
  unfold mkNodeSchema schemaAdditional jsonEntries
  cases hp : props.isEmpty <;> cases hr : reqs.isEmpty <;>
    simp_all [lookupEntries, List.isEmpty_iff]

/-- What the property loop accumulates: `properties` keys are the
non-skipped frame keys in order, and `required` names are exactly the
non-skipped keys whose value passes `should_be_required`. -/
theorem process_properties_loop_spec {entries : List (String × Json)} {flags : Flags}
    {ctx : Ctx} {props : List (String × Json)} {reqs : List Json}
    (h : process_properties_loop entries flags ctx = some (props, reqs)) :
    props.map Prod.fst = (entries.map Prod.fst).filter (fun k => !skipKey k) ∧
    reqs = (entries.filter
        (fun e => !skipKey e.1 && should_be_required e.2 flags)).map
      (fun e => Json.str e.1) := by
  induction entries generalizing props reqs with
  | nil =>
    unfold process_properties_loop at h
    cases h
    simp
  | cons hd tl ih =>
    obtain ⟨k, v⟩ := hd
    unfold process_properties_loop at h
    split at h
    · have := ih h
      simp_all
    · rename_i hskip
      rw [Bool.not_eq_true] at hskip
      cases hps : process_property k v flags ctx with
      | none => rw [hps] at h; cases h
      | some ps =>
        rw [hps] at h
        cases hloop : process_properties_loop tl flags ctx with
        | none => rw [hloop] at h; cases h
        | some pr =>
          obtain ⟨props', reqs'⟩ := pr
          rw [hloop] at h
          cases h
          obtain ⟨ih1, ih2⟩ := ih hloop
          constructor
          · simp [ih1, hskip]
          · simp [ih2, hskip]
            split <;> simp_all

/-- Master characterization of a successful `_process_frame_object`
run: the schema's `properties`, `required` and `additionalProperties`
in terms of the four accumulated segments (`@type`, `@id`, `@reverse`,
then the property loop). -/
theorem process_frame_object_spec {frame : List (String × Json)} {flags : Flags}
    {ctx : Ctx} {S : Json}
    (h : process_frame_object frame flags ctx = some S) :
    ∃ revProps revReq loopProps loopReq,
      process_properties_loop frame flags ctx = some (loopProps, loopReq) ∧
      schemaPropsEntries S = typePropsOf frame ++ idPropsOf frame ++ revProps ++ loopProps ∧
      schemaRequired S = typeReqOf frame ++ idReqOf frame ++ revReq ++ loopReq ∧
      schemaAdditional S = some (Json.bool (!truthy flags.explicit)) ∧
      loopProps.map Prod.fst = (frame.map Prod.fst).filter (fun k => !skipKey k) ∧
      loopReq = (frame.filter
          (fun e => !skipKey e.1 && should_be_required e.2 flags)).map
        (fun e => Json.str e.1) ∧
      ((revProps = [] ∧ revReq = []) ∨
        (∃ rs, revProps = [("@reverse", rs)] ∧ revReq = [Json.str "@reverse"])) := by
  unfold process_frame_object at h
  split at h
  · rename_i rv hrv
    cases hrs : process_reverse_property rv flags ctx with
    | none => rw [hrs] at h; cases h
    | some rs =>
      rw [hrs] at h
      cases hloop : process_properties_loop frame flags ctx with
      | none => rw [hloop] at h; cases h
      | some pr =>
        obtain ⟨lp, lr⟩ := pr
        rw [hloop] at h
        cases h
        obtain ⟨h1, h2⟩ := process_properties_loop_spec hloop
        exact ⟨[("@reverse", rs)], [Json.str "@reverse"], lp, lr, rfl,
          schemaPropsEntries_mkNodeSchema _ _ _, schemaRequired_mkNodeSchema _ _ _,
          schemaAdditional_mkNodeSchema _ _ _, h1, h2, Or.inr ⟨rs, rfl, rfl⟩⟩
  · cases hloop : process_properties_loop frame flags ctx with
    | none => rw [hloop] at h; cases h
    | some pr =>
      obtain ⟨lp, lr⟩ := pr
      rw [hloop] at h
      cases h
      obtain ⟨h1, h2⟩ := process_properties_loop_spec hloop
      refine ⟨[], [], lp, lr, rfl, ?_, ?_, ?_, h1, h2, Or.inl ⟨rfl, rfl⟩⟩
      · simpa using schemaPropsEntries_mkNodeSchema
          (typePropsOf frame ++ idPropsOf frame ++ lp)
          (typeReqOf frame ++ idReqOf frame ++ lr) flags
      · simpa using schemaRequired_mkNodeSchema
          (typePropsOf frame ++ idPropsOf frame ++ lp)
          (typeReqOf frame ++ idReqOf frame ++ lr) flags
      · simpa using schemaAdditional_mkNodeSchema
          (typePropsOf frame ++ idPropsOf frame ++ lp)
          (typeReqOf frame ++ idReqOf frame ++ lr) flags

theorem mem_typeReqOf {frame : List (String × Json)} {x : Json}
    (h : x ∈ typeReqOf frame) : x = Json.str "@type" := by
  unfold typeReqOf at h
  split at h <;> first | (split at h <;> simp_all) | simp_all

theorem mem_idReqOf {frame : List (String × Json)} {x : Json}
    (h : x ∈ idReqOf frame) : x = Json.str "@id" := by
  unfold idReqOf at h
  split at h <;> first | (split at h <;> simp_all) | simp_all

/-- No `required` name contributed by the property loop is a skipped key. -/
theorem str_notin_loopReq {frame : List (String × Json)} {flags : Flags} {key : String}
    (hkey : skipKey key = true) :
    Json.str key ∉ (frame.filter
        (fun e => !skipKey e.1 && should_be_required e.2 flags)).map
      (fun e => Json.str e.1) := by
  intro hmem
  simp only [List.mem_map, List.mem_filter, Bool.and_eq_true, Bool.not_eq_true'] at hmem
  obtain ⟨e, ⟨_, hsk, _⟩, heq⟩ := hmem
  cases heq
  rw [hkey] at hsk
  cases hsk

/-- `@type` is in a node's required list exactly when the frame's
`@type` value is not a wildcard. -/
theorem type_mem_required_iff {frame : List (String × Json)} {flags : Flags}
    {ctx : Ctx} {S : Json} {tv : Json}
    (ht : lookupEntries frame "@type" = some tv)
    (hS : process_frame_object frame flags ctx = some S) :
    (Json.str "@type" ∈ schemaRequired S ↔ is_wildcard tv = false) := by
  obtain ⟨rp, rr, lp, lr, hloop, hprops, hreq, hadd, hlpk, hlr, hrev⟩ :=
    process_frame_object_spec hS
  rw [hreq]
  have htr : typeReqOf frame = if is_wildcard tv then [] else [Json.str "@type"] := by
    unfold typeReqOf
    rw [ht]
  have hnid : Json.str "@type" ∉ idReqOf frame := by
    intro hmem
    have := mem_idReqOf hmem
    simp at this
  have hnrev : Json.str "@type" ∉ rr := by
    rcases hrev with ⟨_, hrr⟩ | ⟨rs, _, hrr⟩ <;> subst hrr <;> simp
  have hnlr : Json.str "@type" ∉ lr := by
    rw [hlr]
    exact str_notin_loopReq (by decide)
  rw [htr]
  cases hw : is_wildcard tv <;> simp [List.mem_append, hnid, hnrev, hnlr]

/-- `@id` is in a node's required list exactly when the frame's `@id`
value is not the empty pattern. -/
theorem id_mem_required_iff {frame : List (String × Json)} {flags : Flags}
    {ctx : Ctx} {S : Json} {iv : Json}
    (hi : lookupEntries frame "@id" = some iv)
    (hS : process_frame_object frame flags ctx = some S) :
    (Json.str "@id" ∈ schemaRequired S ↔ is_empty iv = false) := by
  obtain ⟨rp, rr, lp, lr, hloop, hprops, hreq, hadd, hlpk, hlr, hrev⟩ :=
    process_frame_object_spec hS
  rw [hreq]
  have hir : idReqOf frame = if is_empty iv then [] else [Json.str "@id"] := by
    unfold idReqOf
    rw [hi]
  have hnty : Json.str "@id" ∉ typeReqOf frame := by
    intro hmem
    have := mem_typeReqOf hmem
    simp at this
  have hnrev : Json.str "@id" ∉ rr := by
    rcases hrev with ⟨_, hrr⟩ | ⟨rs, _, hrr⟩ <;> subst hrr <;> simp
  have hnlr : Json.str "@id" ∉ lr := by
    rw [hlr]
    exact str_notin_loopReq (by decide)
  rw [hir]
  cases hw : is_empty iv <;> simp [List.mem_append, hnty, hnrev, hnlr]

/-- The `@type` entry of a node's `properties` is the translated
constraint. -/
theorem type_props_lookup {frame : List (String × Json)} {flags : Flags}
    {ctx : Ctx} {S : Json} {tv : Json}
    (ht : lookupEntries frame "@type" = some tv)
    (hS : process_frame_object frame flags ctx = some S) :
    lookupEntries (schemaPropsEntries S) "@type" = some (process_type_constraint tv) := by
  obtain ⟨rp, rr, lp, lr, hloop, hprops, hreq, hadd, hlpk, hlr, hrev⟩ :=
    process_frame_object_spec hS
  rw [hprops, lookupEntries_append]
  unfold typePropsOf
  rw [ht]
  simp [lookupEntries]

/-- The `@id` entry of a node's `properties` is the translated
constraint. -/
theorem id_props_lookup {frame : List (String × Json)} {flags : Flags}
    {ctx : Ctx} {S : Json} {iv : Json}
    (hi : lookupEntries frame "@id" = some iv)
    (hS : process_frame_object frame flags ctx = some S) :
    lookupEntries (schemaPropsEntries S) "@id" = some (process_id_constraint iv) := by
  obtain ⟨rp, rr, lp, lr, hloop, hprops, hreq, hadd, hlpk, hlr, hrev⟩ :=
    process_frame_object_spec hS
  have h1 : lookupEntries (typePropsOf frame) "@id" = none := by
    unfold typePropsOf
    split <;> simp [lookupEntries]
  have h2 : lookupEntries (idPropsOf frame) "@id" = some (process_id_constraint iv) := by
    unfold idPropsOf
    rw [hi]
    simp [lookupEntries]
  rw [hprops]
  simp only [List.append_assoc, lookupEntries_append, h1, h2]
  simp

/-! ### Claim C1 -/

/-- C1 (amended): for every frame in which `@type` is present, the node
schema maps `@type` to the translated constraint and decides its
requiredness by the wildcard test: a string yields `{const: value}`
(required); an empty list yields `{type: "string"}` (not required); a
one-element list yields `{const: value[0]}` (required); a list of two
or more yields `{enum: values}` (required); an empty object yields
`{type: "string"}` and — amending the claim — `@type` is NOT required,
because `_is_wildcard` treats the empty object as a wildcard too. -/
theorem type_constraint_translation
    {frame : List (String × Json)} {flags : Flags} {ctx : Ctx} {S : Json} {tv : Json}
    (ht : lookupEntries frame "@type" = some tv)
    (hS : process_frame_object frame flags ctx = some S) :
    lookupEntries (schemaPropsEntries S) "@type" = some (process_type_constraint tv) ∧
    (Json.str "@type" ∈ schemaRequired S ↔ is_wildcard tv = false) ∧
    (∀ s, tv = Json.str s →
      process_type_constraint tv = Json.obj [("const", Json.str s)] ∧
      is_wildcard tv = false) ∧
    (tv = Json.arr [] →
      process_type_constraint tv = Json.obj [("type", Json.str "string")] ∧
      is_wildcard tv = true) ∧
    (∀ x, tv = Json.arr [x] →
      process_type_constraint tv = Json.obj [("const", x)] ∧
      is_wildcard tv = false) ∧
    (∀ x y rest, tv = Json.arr (x :: y :: rest) →
      process_type_constraint tv = Json.obj [("enum", Json.arr (x :: y :: rest))] ∧
      is_wildcard tv = false) ∧
    (tv = Json.obj [] →
      process_type_constraint tv = Json.obj [("type", Json.str "string")] ∧
      is_wildcard tv = true) := by
  refine ⟨type_props_lookup ht hS, type_mem_required_iff ht hS, ?_, ?_, ?_, ?_, ?_⟩ <;>
    · intros
      subst_vars
      simp [process_type_constraint, is_wildcard, is_empty]

/-- C1 counterexample: on the frame `{"@type": {}}` (default flags,
empty context) the node schema maps `@type` to `{"type": "string"}`
but has no required list at all, so `@type` is not required — against
the claim's empty-object case. -/
theorem type_wildcard_object_not_required :
    process_frame_object [("@type", Json.obj [])] defaultFlags [] =
      some (Json.obj [("type", Json.str "object"),
        ("properties", Json.obj [("@type", Json.obj [("type", Json.str "string")])]),
        ("additionalProperties", Json.bool true)]) ∧
    Json.str "@type" ∉ schemaRequired (Json.obj [("type", Json.str "object"),
        ("properties", Json.obj [("@type", Json.obj [("type", Json.str "string")])]),
        ("additionalProperties", Json.bool true)]) := by
  constructor
  · simp [process_frame_object_eq_no_reverse,
      process_properties_loop_nil, process_properties_loop_cons,
      process_property_empty_obj, process_property_str, process_property_num,
      process_property_bool, process_property_null, process_property_arr,
      process_property_obj_cons, process_array_frame_nil, process_array_frame_cons,
      process_nested_frame_obj, process_nested_frame_str,
      process_reverse_property_obj, process_reverse_property_str,
      reverse_properties_loop_nil, reverse_properties_loop_cons,
      typePropsOf, typeReqOf, idPropsOf, idReqOf, mkNodeSchema, lookupEntries,
      skipKey, FRAMING_KEYWORDS, process_type_constraint, is_wildcard, is_empty,
      truthy, defaultFlags, ctxGet, infer_type_from_context, inferFromTypeName,
      has_default_only, hasKey, should_be_required]
  · simp [schemaRequired, jsonEntries, lookupEntries]

/-- Witness for `type_constraint_translation` at the frame
`{"@type": "T"}`: `@type` maps to `{const: "T"}` and is required. -/
theorem type_constraint_translation_witness :
    lookupEntries (schemaPropsEntries (Json.obj [("type", Json.str "object"),
        ("properties", Json.obj [("@type", Json.obj [("const", Json.str "T")])]),
        ("required", Json.arr [Json.str "@type"]),
        ("additionalProperties", Json.bool true)])) "@type" =
      some (process_type_constraint (Json.str "T")) ∧
    Json.str "@type" ∈ schemaRequired (Json.obj [("type", Json.str "object"),
        ("properties", Json.obj [("@type", Json.obj [("const", Json.str "T")])]),
        ("required", Json.arr [Json.str "@type"]),
        ("additionalProperties", Json.bool true)]) := by
  have hS : process_frame_object [("@type", Json.str "T")] defaultFlags [] =
      some (Json.obj [("type", Json.str "object"),
        ("properties", Json.obj [("@type", Json.obj [("const", Json.str "T")])]),
        ("required", Json.arr [Json.str "@type"]),
        ("additionalProperties", Json.bool true)]) := by
    simp [process_frame_object_eq_no_reverse,
      process_properties_loop_nil, process_properties_loop_cons,
      process_property_empty_obj, process_property_str, process_property_num,
      process_property_bool, process_property_null, process_property_arr,
      process_property_obj_cons, process_array_frame_nil, process_array_frame_cons,
      process_nested_frame_obj, process_nested_frame_str,
      process_reverse_property_obj, process_reverse_property_str,
      reverse_properties_loop_nil, reverse_properties_loop_cons,
      typePropsOf, typeReqOf, idPropsOf, idReqOf, mkNodeSchema, lookupEntries,
      skipKey, FRAMING_KEYWORDS, process_type_constraint, is_wildcard, is_empty,
      truthy, defaultFlags, ctxGet, infer_type_from_context, inferFromTypeName,
      has_default_only, hasKey, should_be_required]
  have h := @type_constraint_translation [("@type", Json.str "T")] defaultFlags [] _
    (Json.str "T") (by simp [lookupEntries]) hS
  exact ⟨h.1, h.2.1.mpr (by simp [is_wildcard, is_empty])⟩

/-! ### Claim C2 -/

/-- C2: for a non-keyword frame property `(key, v)` (keys unique, as in
a Python dict), membership of `key` in the node's required list is
decided exactly by the spec's precedence chain `requiredPerSpec`:
requireAll → required; else omitDefault → not; else empty pattern →
required; else object-or-array → required; else not. -/
theorem required_precedence
    {frame : List (String × Json)} {flags : Flags} {ctx : Ctx} {S : Json}
    {key : String} {v : Json}
    (hnd : (frame.map Prod.fst).Nodup)
    (hkeep : skipKey key = false)
    (hmem : (key, v) ∈ frame)
    (hS : process_frame_object frame flags ctx = some S) :
    (Json.str key ∈ schemaRequired S ↔ requiredPerSpec v flags = true) := by
  obtain ⟨rp, rr, lp, lr, hloop, hprops, hreq, hadd, hlpk, hlr, hrev⟩ :=
    process_frame_object_spec hS
  rw [hreq]
  have hks : FRAMING_KEYWORDS.contains key = false ∧ key ≠ "@type" ∧ key ≠ "@id" := by
    revert hkeep
    unfold skipKey
    simp
    tauto
  have hk1 : key ≠ "@type" := hks.2.1
  have hk2 : key ≠ "@id" := hks.2.2
  have hk3 : key ≠ "@reverse" := by
    intro h
    subst h
    revert hks
    simp [FRAMING_KEYWORDS]
  have hntr : Json.str key ∉ typeReqOf frame := by
    intro hm
    exact hk1 (by simpa using mem_typeReqOf hm)
  have hnir : Json.str key ∉ idReqOf frame := by
    intro hm
    exact hk2 (by simpa using mem_idReqOf hm)
  have hnrr : Json.str key ∉ rr := by
    rcases hrev with ⟨_, hrr⟩ | ⟨rs, _, hrr⟩ <;> subst hrr <;> simp
    exact fun h => hk3 h
  have hlr_iff : Json.str key ∈ lr ↔ should_be_required v flags = true := by
    rw [hlr]
    constructor
    · intro hm
      simp only [List.mem_map, List.mem_filter, Bool.and_eq_true] at hm
      obtain ⟨e, ⟨hemem, _, hsbr⟩, heq⟩ := hm
      have hfst : e.1 = key := by
        simpa using heq
      have : e = (key, v) := by
        have := List.inj_on_of_nodup_map hnd hemem hmem (by simpa using hfst)
        exact this
      rw [this] at hsbr
      exact hsbr
    · intro hsbr
      refine List.mem_map.mpr ⟨(key, v), List.mem_filter.mpr ⟨hmem, ?_⟩, rfl⟩
      simp [hkeep, hsbr]
  rw [← should_be_required_eq_spec]
  simp only [List.mem_append]
  constructor
  · rintro (((h | h) | h) | h)
    · exact absurd h hntr
    · exact absurd h hnir
    · exact absurd h hnrr
    · exact hlr_iff.mp h
  · intro h
    exact Or.inr (hlr_iff.mpr h)

/-- Witness for `required_precedence` at the frame `{"p": {}}` with
default flags: the empty pattern makes `p` required. -/
theorem required_precedence_witness :
    Json.str "p" ∈ schemaRequired (Json.obj [("type", Json.str "object"),
      ("properties", Json.obj [("p", Json.obj [("type", Json.str "string")])]),
      ("required", Json.arr [Json.str "p"]),
      ("additionalProperties", Json.bool true)]) ∧
    requiredPerSpec (Json.obj []) defaultFlags = true := by
  have hS : process_frame_object [("p", Json.obj [])] defaultFlags [] =
      some (Json.obj [("type", Json.str "object"),
        ("properties", Json.obj [("p", Json.obj [("type", Json.str "string")])]),
        ("required", Json.arr [Json.str "p"]),
        ("additionalProperties", Json.bool true)]) := by
    simp [process_frame_object_eq_no_reverse,
      process_properties_loop_nil, process_properties_loop_cons,
      process_property_empty_obj, process_property_str, process_property_num,
      process_property_bool, process_property_null, process_property_arr,
      process_property_obj_cons, process_array_frame_nil, process_array_frame_cons,
      process_nested_frame_obj, process_nested_frame_str,
      process_reverse_property_obj, process_reverse_property_str,
      reverse_properties_loop_nil, reverse_properties_loop_cons,
      typePropsOf, typeReqOf, idPropsOf, idReqOf, mkNodeSchema, lookupEntries,
      skipKey, FRAMING_KEYWORDS, process_type_constraint, is_wildcard, is_empty,
      truthy, defaultFlags, ctxGet, infer_type_from_context, inferFromTypeName,
      has_default_only, hasKey, should_be_required]
  have h := @required_precedence [("p", Json.obj [])] defaultFlags [] _ "p" (Json.obj [])
    (by simp) (by simp [skipKey, FRAMING_KEYWORDS]) (by simp) hS
  exact ⟨h.mpr (by simp [requiredPerSpec, truthy, defaultFlags]),
    by simp [requiredPerSpec, truthy, defaultFlags]⟩

/-! ### Claim C3 -/

/-- C3 (amended): for every frame in which `@id` is present, the node
schema maps `@id` by `_process_id_constraint`: a string yields
`{const: value}` and `@id` is required; the empty object yields
`{type: "string", format: "uri"}` and `@id` is NOT required; a nested
object `{"@id": X}` recurses on X.  Amending the claim's parenthetical:
there is no asymmetry with wildcard `@type` — an empty-object `@type`
is likewise not required. -/
theorem id_constraint_translation
    {frame : List (String × Json)} {flags : Flags} {ctx : Ctx} {S : Json} {iv : Json}
    (hi : lookupEntries frame "@id" = some iv)
    (hS : process_frame_object frame flags ctx = some S) :
    lookupEntries (schemaPropsEntries S) "@id" = some (process_id_constraint iv) ∧
    (Json.str "@id" ∈ schemaRequired S ↔ is_empty iv = false) ∧
    (∀ s, iv = Json.str s →
      process_id_constraint iv = Json.obj [("const", Json.str s)] ∧
      is_empty iv = false) ∧
    (iv = Json.obj [] →
      process_id_constraint iv = Json.obj [("type", Json.str "string"),
        ("format", Json.str "uri")] ∧
      is_empty iv = true) ∧
    (∀ e rest x, iv = Json.obj (e :: rest) →
      lookupEntries (e :: rest) "@id" = some x →
      process_id_constraint iv = process_id_constraint x) := by
  refine ⟨id_props_lookup hi hS, id_mem_required_iff hi hS, ?_, ?_, ?_⟩
  · intro s h
    subst h
    constructor
    · rw [process_id_constraint.eq_def]
    · simp [is_empty]
  · intro h
    subst h
    constructor
    · rw [process_id_constraint.eq_def]
      rfl
    · simp [is_empty]
  · intro e rest x h hx
    subst h
    rw [process_id_constraint_obj_cons, hx]

/-- C3 counterexample: on the frame `{"@type": {}, "@id": {}}` the
produced node schema has an empty required list — wildcard `@type` is
not required, so the asymmetry asserted by the claim (wildcard `@id`
optional but wildcard `@type` required) does not exist in the code. -/
theorem wildcard_type_and_id_both_optional :
    process_frame_object [("@type", Json.obj []), ("@id", Json.obj [])] defaultFlags [] =
      some (Json.obj [("type", Json.str "object"),
        ("properties", Json.obj
          [("@type", Json.obj [("type", Json.str "string")]),
           ("@id", Json.obj [("type", Json.str "string"), ("format", Json.str "uri")])]),
        ("additionalProperties", Json.bool true)]) ∧
    Json.str "@type" ∉ schemaRequired (Json.obj [("type", Json.str "object"),
        ("properties", Json.obj
          [("@type", Json.obj [("type", Json.str "string")]),
           ("@id", Json.obj [("type", Json.str "string"), ("format", Json.str "uri")])]),
        ("additionalProperties", Json.bool true)]) := by
  constructor
  · rw [process_frame_object_eq_no_reverse (by simp [lookupEntries])]
    rw [process_properties_loop_cons]
    simp [skipKey, FRAMING_KEYWORDS, process_properties_loop_cons,
      process_properties_loop_nil, typePropsOf, typeReqOf, idPropsOf, idReqOf,
      lookupEntries, process_type_constraint, process_id_constraint.eq_def,
      is_wildcard, is_empty, mkNodeSchema, truthy, defaultFlags, uriSchema]
  · simp [schemaRequired, jsonEntries, lookupEntries]

/-- Witness for `id_constraint_translation` at the frame
`{"@id": "http://example.org/person/1"}`: `@id` maps to a `const` and
is required. -/
theorem id_constraint_translation_witness :
    lookupEntries (schemaPropsEntries (Json.obj [("type", Json.str "object"),
        ("properties", Json.obj
          [("@id", Json.obj [("const", Json.str "http://example.org/person/1")])]),
        ("required", Json.arr [Json.str "@id"]),
        ("additionalProperties", Json.bool true)])) "@id" =
      some (process_id_constraint (Json.str "http://example.org/person/1")) ∧
    Json.str "@id" ∈ schemaRequired (Json.obj [("type", Json.str "object"),
        ("properties", Json.obj
          [("@id", Json.obj [("const", Json.str "http://example.org/person/1")])]),
        ("required", Json.arr [Json.str "@id"]),
        ("additionalProperties", Json.bool true)]) := by
  have hS : process_frame_object [("@id", Json.str "http://example.org/person/1")]
      defaultFlags [] =
      some (Json.obj [("type", Json.str "object"),
        ("properties", Json.obj
          [("@id", Json.obj [("const", Json.str "http://example.org/person/1")])]),
        ("required", Json.arr [Json.str "@id"]),
        ("additionalProperties", Json.bool true)]) := by
    rw [process_frame_object_eq_no_reverse (by simp [lookupEntries])]
    rw [process_properties_loop_cons]
    simp [skipKey, FRAMING_KEYWORDS, process_properties_loop_nil, typePropsOf,
      typeReqOf, idPropsOf, idReqOf, lookupEntries, process_id_constraint.eq_def,
      is_wildcard, is_empty, mkNodeSchema, truthy, defaultFlags]
  have h := @id_constraint_translation [("@id", Json.str "http://example.org/person/1")]
    defaultFlags [] _ (Json.str "http://example.org/person/1")
    (by simp [lookupEntries]) hS
  exact ⟨h.1, h.2.1.mpr (by simp [is_empty])⟩

/-! ### Claim C4 -/

/-- C4: the `additionalProperties` keyword of every node schema the
Node Processor produces (the root node and every embedded nested node)
is the negation of that node's resolved explicit flag: it is `false`
iff the flag is truthy, `true` when the flag is absent or false.  For
a nested frame the resolved flag is its own `@explicit` value if
present, else the inherited parent value (`extractNestedFlags`); the
root default is `false`. -/
theorem additionalProperties_iff_explicit
    {frame : List (String × Json)} {flags : Flags} {ctx : Ctx} {S : Json}
    (hS : process_frame_object frame flags ctx = some S) :
    schemaAdditional S = some (Json.bool (!truthy flags.explicit)) ∧
    (schemaAdditional S = some (Json.bool false) ↔ truthy flags.explicit = true) ∧
    (∀ kvs T, process_nested_frame (Json.obj kvs) flags ctx = some T →
      embedNever (extractNestedFlags kvs flags).embed = false →
      schemaAdditional T =
        some (Json.bool (!truthy (extractNestedFlags kvs flags).explicit))) ∧
    (∀ kvs, (extractNestedFlags kvs flags).explicit =
      (lookupEntries kvs "@explicit").getD flags.explicit) ∧
    defaultFlags.explicit = Json.bool false := by
  obtain ⟨rp, rr, lp, lr, hloop, hprops, hreq, hadd, hlpk, hlr, hrev⟩ :=
    process_frame_object_spec hS
  refine ⟨hadd, ?_, ?_, fun kvs => rfl, rfl⟩
  · rw [hadd]
    cases hex : truthy flags.explicit <;> simp
  · intro kvs T hT hemb
    rw [process_nested_frame_obj, hemb] at hT
    simp at hT
    obtain ⟨rp', rr', lp', lr', hloop', hprops', hreq', hadd', hlpk', hlr', hrev'⟩ :=
      process_frame_object_spec hT
    exact hadd'

/-- Witness for `additionalProperties_iff_explicit` at the frame
`{"@explicit": true}` processed under its own extracted flags:
`additionalProperties` is `false`. -/
theorem additionalProperties_iff_explicit_witness :
    schemaAdditional (Json.obj [("type", Json.str "object"),
      ("additionalProperties", Json.bool false)]) = some (Json.bool false) := by
  have hS : process_frame_object [("@explicit", Json.bool true)]
      (extract_framing_flags [("@explicit", Json.bool true)]) [] =
      some (Json.obj [("type", Json.str "object"),
        ("additionalProperties", Json.bool false)]) := by
    rw [process_frame_object_eq_no_reverse (by simp [lookupEntries])]
    rw [process_properties_loop_cons]
    simp [skipKey, FRAMING_KEYWORDS, process_properties_loop_nil, typePropsOf,
      typeReqOf, idPropsOf, idReqOf, lookupEntries, mkNodeSchema, truthy,
      extract_framing_flags, extractNestedFlags, defaultFlags]
  exact (additionalProperties_iff_explicit hS).2.1.mpr
    (by simp [extract_framing_flags, extractNestedFlags, lookupEntries, truthy,
      defaultFlags])

/-! ### Claim C5 -/

theorem mem_keys_typePropsOf {frame : List (String × Json)} {k : String}
    (h : k ∈ (typePropsOf frame).map Prod.fst) : k = "@type" := by
  unfold typePropsOf at h
  split at h <;> simp_all

theorem mem_keys_idPropsOf {frame : List (String × Json)} {k : String}
    (h : k ∈ (idPropsOf frame).map Prod.fst) : k = "@id" := by
  unfold idPropsOf at h
  split at h <;> simp_all

theorem mem_loopReq {frame : List (String × Json)} {flags : Flags} {x : Json}
    (h : x ∈ (frame.filter
        (fun e => !skipKey e.1 && should_be_required e.2 flags)).map
      (fun e => Json.str e.1)) :
    ∃ e, e ∈ frame ∧ skipKey e.1 = false ∧ should_be_required e.2 flags = true ∧
      x = Json.str e.1 := by
  simp only [List.mem_map, List.mem_filter, Bool.and_eq_true, Bool.not_eq_true'] at h
  obtain ⟨e, ⟨he, hsk, hsbr⟩, heq⟩ := h
  exact ⟨e, he, hsk, hsbr, heq.symm⟩

/-- C5: in every node schema the Node Processor produces (at any
nesting depth — the statement quantifies over every invocation), each
entry of `required` is a string naming a key present in that node's
`properties`, and `required` has no duplicates. -/
theorem required_subset_properties_nodup
    {frame : List (String × Json)} {flags : Flags} {ctx : Ctx} {S : Json}
    (hnd : (frame.map Prod.fst).Nodup)
    (hS : process_frame_object frame flags ctx = some S) :
    (∀ x ∈ schemaRequired S, ∃ k, x = Json.str k ∧
      hasKey (schemaPropsEntries S) k = true) ∧
    (schemaRequired S).Nodup := by
  obtain ⟨rp, rr, lp, lr, hloop, hprops, hreq, hadd, hlpk, hlr, hrev⟩ :=
    process_frame_object_spec hS
  constructor
  · intro x hx
    rw [hreq] at hx
    rw [hprops]
    simp only [List.mem_append] at hx
    rcases hx with ((hx | hx) | hx) | hx
    · have hx' := mem_typeReqOf hx
      subst hx'
      refine ⟨"@type", rfl, ?_⟩
      have hhk : hasKey (typePropsOf frame) "@type" = true := by
        unfold typeReqOf at hx
        unfold typePropsOf
        cases hlk : lookupEntries frame "@type" with
        | none => rw [hlk] at hx; simp at hx
        | some tv => simp [hlk, hasKey, lookupEntries]
      simp [hasKey_append, hhk]
    · have hx' := mem_idReqOf hx
      subst hx'
      refine ⟨"@id", rfl, ?_⟩
      have hhk : hasKey (idPropsOf frame) "@id" = true := by
        unfold idReqOf at hx
        unfold idPropsOf
        cases hlk : lookupEntries frame "@id" with
        | none => rw [hlk] at hx; simp at hx
        | some iv => simp [hlk, hasKey, lookupEntries]
      simp [hasKey_append, hhk]
    · rcases hrev with ⟨hrp, hrr⟩ | ⟨rs, hrp, hrr⟩
      · subst hrr
        simp at hx
      · subst hrr
        simp at hx
        subst hx
        refine ⟨"@reverse", rfl, ?_⟩
        subst hrp
        refine hasKey_iff_mem.mpr ?_
        simp
    · rw [hlr] at hx
      obtain ⟨e, he, hsk, hsbr, hxe⟩ := mem_loopReq hx
      subst hxe
      refine ⟨e.1, rfl, ?_⟩
      have hmemk : e.1 ∈ lp.map Prod.fst := by
        rw [hlpk]
        simp only [List.mem_filter]
        exact ⟨List.mem_map_of_mem Prod.fst he, by simp [hsk]⟩
      have hhk := hasKey_iff_mem.mpr hmemk
      simp [hasKey_append, hhk]
  · rw [hreq]
    have h1 : (typeReqOf frame).Nodup := by
      unfold typeReqOf
      split
      · split <;> simp
      · simp
    have h2 : (idReqOf frame).Nodup := by
      unfold idReqOf
      split
      · split <;> simp
      · simp
    have h3 : rr.Nodup := by
      rcases hrev with ⟨_, hrr⟩ | ⟨rs, _, hrr⟩ <;> subst hrr <;> simp
    have hkeys : (lp.map Prod.fst).Nodup := by
      rw [hlpk]
      exact hnd.filter _
    have h4 : lr.Nodup := by
      have hrw : lr = ((frame.filter
          (fun e => !skipKey e.1 && should_be_required e.2 flags)).map
            Prod.fst).map Json.str := by
        rw [hlr, List.map_map]
        rfl
      rw [hrw]
      refine List.Nodup.map (fun a b hab => by simpa using hab) ?_
      refine List.Nodup.sublist (List.Sublist.map Prod.fst (List.filter_sublist _)) hnd
    have hd12 : List.Disjoint (typeReqOf frame) (idReqOf frame) := by
      intro x hx hy
      have := mem_typeReqOf hx
      have := mem_idReqOf hy
      simp_all
    have hd3 : List.Disjoint (typeReqOf frame ++ idReqOf frame) rr := by
      intro x hx hy
      have hxv : x = Json.str "@type" ∨ x = Json.str "@id" := by
        rcases List.mem_append.mp hx with h | h
        · exact Or.inl (mem_typeReqOf h)
        · exact Or.inr (mem_idReqOf h)
      rcases hrev with ⟨_, hrr⟩ | ⟨rs, _, hrr⟩ <;> subst hrr <;> simp_all
    have hd4 : List.Disjoint (typeReqOf frame ++ idReqOf frame ++ rr) lr := by
      intro x hx hy
      have hxv : x = Json.str "@type" ∨ x = Json.str "@id" ∨ x = Json.str "@reverse" := by
        rcases List.mem_append.mp hx with h | h
        · rcases List.mem_append.mp h with h' | h'
          · exact Or.inl (mem_typeReqOf h')
          · exact Or.inr (Or.inl (mem_idReqOf h'))
        · rcases hrev with ⟨_, hrr⟩ | ⟨rs, _, hrr⟩ <;> subst hrr <;> simp_all
      rw [hlr] at hy
      rcases hxv with h | h | h <;> subst h <;>
        exact str_notin_loopReq (by decide) hy
    simp only [List.nodup_append]
    exact ⟨⟨⟨h1, h2, hd12⟩, h3, hd3⟩, h4, hd4⟩

/-- Witness for `required_subset_properties_nodup` at the frame
`{"@type": "T", "p": {}}`: required is `["@type", "p"]`, both are
property keys, no duplicates. -/
theorem required_subset_properties_nodup_witness :
    (∀ x ∈ schemaRequired (Json.obj [("type", Json.str "object"),
        ("properties", Json.obj [("@type", Json.obj [("const", Json.str "T")]),
          ("p", Json.obj [("type", Json.str "string")])]),
        ("required", Json.arr [Json.str "@type", Json.str "p"]),
        ("additionalProperties", Json.bool true)]),
      ∃ k, x = Json.str k ∧
        hasKey (schemaPropsEntries (Json.obj [("type", Json.str "object"),
          ("properties", Json.obj [("@type", Json.obj [("const", Json.str "T")]),
            ("p", Json.obj [("type", Json.str "string")])]),
          ("required", Json.arr [Json.str "@type", Json.str "p"]),
          ("additionalProperties", Json.bool true)])) k = true) ∧
    (schemaRequired (Json.obj [("type", Json.str "object"),
      ("properties", Json.obj [("@type", Json.obj [("const", Json.str "T")]),
        ("p", Json.obj [("type", Json.str "string")])]),
      ("required", Json.arr [Json.str "@type", Json.str "p"]),
      ("additionalProperties", Json.bool true)])).Nodup := by
  have hS : process_frame_object [("@type", Json.str "T"), ("p", Json.obj [])]
      defaultFlags [] =
      some (Json.obj [("type", Json.str "object"),
        ("properties", Json.obj [("@type", Json.obj [("const", Json.str "T")]),
          ("p", Json.obj [("type", Json.str "string")])]),
        ("required", Json.arr [Json.str "@type", Json.str "p"]),
        ("additionalProperties", Json.bool true)]) := by
    rw [process_frame_object_eq_no_reverse (by simp [lookupEntries])]
    rw [process_properties_loop_cons]
    simp [skipKey, FRAMING_KEYWORDS, process_properties_loop_cons,
      process_properties_loop_nil, process_property_empty_obj, typePropsOf,
      typeReqOf, idPropsOf, idReqOf, lookupEntries, process_type_constraint,
      is_wildcard, is_empty, mkNodeSchema, truthy, defaultFlags, ctxGet,
      infer_type_from_context, should_be_required]
  exact required_subset_properties_nodup (by simp) hS

/-! ### Claim C6 -/

theorem embedNever_iff (v : Json) :
    embedNever v = true ↔ (v = Json.bool false ∨ v = Json.str "@never") := by
  cases v with
  | bool b => cases b <;> simp [embedNever]
  | str s => simp [embedNever]
  | _ => simp [embedNever]

theorem type_key_mkNodeSchema (props : List (String × Json)) (reqs : List Json)
    (flags : Flags) :
    lookupEntries (jsonEntries (mkNodeSchema props reqs flags)) "type" =
      some (Json.str "object") := by
  unfold mkNodeSchema jsonEntries
  cases hp : props.isEmpty <;> cases hr : reqs.isEmpty <;> simp_all [lookupEntries]

/-- Every node schema the Node Processor produces carries
`"type": "object"`. -/
theorem process_frame_object_type_key {frame : List (String × Json)} {flags : Flags}
    {ctx : Ctx} {S : Json}
    (h : process_frame_object frame flags ctx = some S) :
    lookupEntries (jsonEntries S) "type" = some (Json.str "object") := by
  cases hrv : lookupEntries frame "@reverse" with
  | some rv =>
    rw [process_frame_object_eq_reverse hrv] at h
    cases hrs : process_reverse_property rv flags ctx with
    | none => rw [hrs] at h; cases h
    | some rs =>
      rw [hrs] at h
      cases hloop : process_properties_loop frame flags ctx with
      | none => rw [hloop] at h; cases h
      | some pr =>
        obtain ⟨lp, lr⟩ := pr
        rw [hloop] at h
        cases h
        exact type_key_mkNodeSchema _ _ _
  | none =>
    rw [process_frame_object_eq_no_reverse hrv] at h
    cases hloop : process_properties_loop frame flags ctx with
    | none => rw [hloop] at h; cases h
    | some pr =>
      obtain ⟨lp, lr⟩ := pr
      rw [hloop] at h
      cases h
      exact type_key_mkNodeSchema _ _ _

/-- C6: a nested frame resolves its flags first (own keyword value,
else parent); when the resolved embed flag is `False` or `"@never"`
the produced schema is exactly the reference `oneOf` schema, whatever
the nested frame's other properties are (no recursion); for any other
resolved embed value the nested frame is fully recursed, producing an
embedded `type: "object"` schema. -/
theorem embed_never_reference
    (kvs : List (String × Json)) (flags : Flags) (ctx : Ctx) :
    (embedNever (extractNestedFlags kvs flags).embed = true →
      process_nested_frame (Json.obj kvs) flags ctx = some (Json.obj [("oneOf", Json.arr
        [Json.obj [("type", Json.str "string"), ("format", Json.str "uri")],
         Json.obj [("type", Json.str "object"),
           ("properties", Json.obj
             [("@id", Json.obj [("type", Json.str "string"), ("format", Json.str "uri")])]),
           ("required", Json.arr [Json.str "@id"]),
           ("additionalProperties", Json.bool false)]])])) ∧
    (embedNever (extractNestedFlags kvs flags).embed = true ↔
      ((extractNestedFlags kvs flags).embed = Json.bool false ∨
       (extractNestedFlags kvs flags).embed = Json.str "@never")) ∧
    ((extractNestedFlags kvs flags).embed = (lookupEntries kvs "@embed").getD flags.embed) ∧
    (embedNever (extractNestedFlags kvs flags).embed = false →
      process_nested_frame (Json.obj kvs) flags ctx =
        process_frame_object kvs (extractNestedFlags kvs flags) ctx ∧
      (∀ T, process_nested_frame (Json.obj kvs) flags ctx = some T →
        lookupEntries (jsonEntries T) "type" = some (Json.str "object"))) := by
  refine ⟨?_, embedNever_iff _, rfl, ?_⟩
  · intro h
    rw [process_nested_frame_obj, h]
    rfl
  · intro h
    have heq : process_nested_frame (Json.obj kvs) flags ctx =
        process_frame_object kvs (extractNestedFlags kvs flags) ctx := by
      rw [process_nested_frame_obj, h]
      simp
    refine ⟨heq, ?_⟩
    intro T hT
    rw [heq] at hT
    exact process_frame_object_type_key hT

/-- Witness for `embed_never_reference` at the nested frame
`{"@embed": false, "name": {}}`: the output is the reference schema,
with `name` never recursed into. -/
theorem embed_never_reference_witness :
    process_nested_frame (Json.obj [("@embed", Json.bool false), ("name", Json.obj [])])
      defaultFlags [] = some (Json.obj [("oneOf", Json.arr
        [Json.obj [("type", Json.str "string"), ("format", Json.str "uri")],
         Json.obj [("type", Json.str "object"),
           ("properties", Json.obj
             [("@id", Json.obj [("type", Json.str "string"), ("format", Json.str "uri")])]),
           ("required", Json.arr [Json.str "@id"]),
           ("additionalProperties", Json.bool false)]])]) := by
  exact (embed_never_reference [("@embed", Json.bool false), ("name", Json.obj [])]
    defaultFlags []).1
    (by simp [extractNestedFlags, lookupEntries, embedNever, defaultFlags])

/-! ### Claim C7 -/

/-- C7: the first half of the claim holds — a frame value matching no
dispatcher classification (here JSON null) yields the empty schema
fragment `{}` — but the second half fails: `convert` is not total.  On
the frame `{"@reverse": "x"}` the source calls `"x".items()` inside
`_process_reverse_property` and raises `AttributeError`; the embedding
returns `none` (the modelled exception) instead of a schema. -/
theorem dispatcher_null_empty_and_reverse_string_raises :
    process_property "p" Json.null defaultFlags [] = some (Json.obj []) ∧
    convert false "https://json-schema.org/draft/2020-12/schema" []
      [("@reverse", Json.str "x")] = none := by
  constructor
  · exact process_property_null "p" defaultFlags []
  · have h1 : graphUnwrap [("@reverse", Json.str "x")] =
        some (Json.obj [("@reverse", Json.str "x")]) := by
      simp [graphUnwrap, lookupEntries]
    have h2 : process_frame_object [("@reverse", Json.str "x")]
        (extract_framing_flags [("@reverse", Json.str "x")]) [] = none := by
      rw [@process_frame_object_eq_reverse [("@reverse", Json.str "x")]
        (extract_framing_flags [("@reverse", Json.str "x")]) [] (Json.str "x")
        (by simp [lookupEntries])]
      rw [process_reverse_property_str]
    simp [convert, h1, h2]

/-! ### Claim C9 -/

/-- C9: when the frame's top-level `@graph` value is the empty array,
neither unwrapping branch of `convert` applies — the outer frame
object itself becomes the effective node frame — and, `@graph` being a
framing keyword, the produced node schema has `@graph` in neither its
`properties` keys nor its `required` list. -/
theorem empty_graph_array_not_unwrapped
    {frame : List (String × Json)} {flags : Flags} {ctx : Ctx} {S : Json}
    (hg : lookupEntries frame "@graph" = some (Json.arr []))
    (hS : process_frame_object frame flags ctx = some S) :
    graphUnwrap frame = some (Json.obj frame) ∧
    hasKey (schemaPropsEntries S) "@graph" = false ∧
    Json.str "@graph" ∉ schemaRequired S := by
  obtain ⟨rp, rr, lp, lr, hloop, hprops, hreq, hadd, hlpk, hlr, hrev⟩ :=
    process_frame_object_spec hS
  refine ⟨?_, ?_, ?_⟩
  · unfold graphUnwrap
    rw [hg]
    unfold effectiveFrameContent attachContext jsonContainsKey
    cases hb : hasKey frame "@context" <;> simp [hb]
  · have hno : ¬ ("@graph" ∈
        (typePropsOf frame ++ idPropsOf frame ++ rp ++ lp).map Prod.fst) := by
      intro hm
      simp only [List.map_append, List.mem_append] at hm
      rcases hm with ((h | h) | h) | h
      · have := mem_keys_typePropsOf h
        simp at this
      · have := mem_keys_idPropsOf h
        simp at this
      · rcases hrev with ⟨hrp, _⟩ | ⟨rs, hrp, _⟩ <;> subst hrp <;> simp_all
      · rw [hlpk] at h
        have := (List.mem_filter.mp h).2
        rw [show skipKey "@graph" = true from by decide] at this
        cases this
    rw [hprops]
    cases hhk : hasKey (typePropsOf frame ++ idPropsOf frame ++ rp ++ lp) "@graph"
    · rfl
    · exact absurd (hasKey_iff_mem.mp hhk) hno
  · rw [hreq]
    intro hmem
    simp only [List.mem_append] at hmem
    rcases hmem with ((h | h) | h) | h
    · have := mem_typeReqOf h
      simp at this
    · have := mem_idReqOf h
      simp at this
    · rcases hrev with ⟨_, hrr⟩ | ⟨rs, _, hrr⟩ <;> subst hrr <;> simp_all
    · rw [hlr] at h
      exact str_notin_loopReq (by decide) h

/-- Witness for `empty_graph_array_not_unwrapped` at the frame
`{"@graph": [], "@type": "T"}`. -/
theorem empty_graph_array_not_unwrapped_witness :
    graphUnwrap [("@graph", Json.arr []), ("@type", Json.str "T")] =
      some (Json.obj [("@graph", Json.arr []), ("@type", Json.str "T")]) ∧
    hasKey (schemaPropsEntries (Json.obj [("type", Json.str "object"),
      ("properties", Json.obj [("@type", Json.obj [("const", Json.str "T")])]),
      ("required", Json.arr [Json.str "@type"]),
      ("additionalProperties", Json.bool true)])) "@graph" = false ∧
    Json.str "@graph" ∉ schemaRequired (Json.obj [("type", Json.str "object"),
      ("properties", Json.obj [("@type", Json.obj [("const", Json.str "T")])]),
      ("required", Json.arr [Json.str "@type"]),
      ("additionalProperties", Json.bool true)]) := by
  have hS : process_frame_object [("@graph", Json.arr []), ("@type", Json.str "T")]
      defaultFlags [] =
      some (Json.obj [("type", Json.str "object"),
        ("properties", Json.obj [("@type", Json.obj [("const", Json.str "T")])]),
        ("required", Json.arr [Json.str "@type"]),
        ("additionalProperties", Json.bool true)]) := by
    rw [process_frame_object_eq_no_reverse (by simp [lookupEntries])]
    rw [process_properties_loop_cons]
    simp [skipKey, FRAMING_KEYWORDS, process_properties_loop_cons,
      process_properties_loop_nil, typePropsOf, typeReqOf, idPropsOf, idReqOf,
      lookupEntries, process_type_constraint, is_wildcard, is_empty, mkNodeSchema,
      truthy, defaultFlags]
  exact empty_graph_array_not_unwrapped (by simp [lookupEntries]) hS

/-! ### Claim C10 -/

theorem hasKey_valueTypeProps_lang (kvs : List (String × Json)) :
    hasKey (valueTypeProps kvs [("@value", Json.obj [])]) "@language" = false := by
  unfold valueTypeProps
  split <;> simp [hasKey, lookupEntries]

theorem hasKey_valueLangProps_type (kvs : List (String × Json)) :
    hasKey (valueLangProps kvs [("@value", Json.obj [])]) "@type" = false := by
  unfold valueLangProps
  split <;> simp [hasKey, lookupEntries]

/-- C10: the value-object branch of the `oneOf` produced by
`_process_value_object_frame` requires exactly `["@value"]` whatever
the frame constrains; an `@language` or `@type` frame entry that is
neither a string nor the empty pattern is silently left out of the
branch's properties; and the dispatcher routes every object frame
containing `@value` to this translator. -/
theorem value_object_frame_spec (kvs : List (String × Json)) :
    (∃ P, process_value_object_frame kvs =
      Json.obj [("oneOf", Json.arr
        [Json.obj [("type", Json.str "string")],
         Json.obj [("type", Json.str "object"),
           ("properties", Json.obj P),
           ("required", Json.arr [Json.str "@value"])]])] ∧
      lookupEntries P "@value" = some (Json.obj []) ∧
      (∀ lv, lookupEntries kvs "@language" = some lv →
        (∀ s, lv ≠ Json.str s) → lv ≠ Json.obj [] → hasKey P "@language" = false) ∧
      (∀ tv, lookupEntries kvs "@type" = some tv →
        (∀ s, tv ≠ Json.str s) → tv ≠ Json.obj [] → hasKey P "@type" = false)) ∧
    (∀ key flags ctx, hasKey kvs "@value" = true →
      process_property key (Json.obj kvs) flags ctx =
        some (process_value_object_frame kvs)) := by
  constructor
  · refine ⟨valueTypeProps kvs (valueLangProps kvs [("@value", Json.obj [])]),
      rfl, ?_, ?_, ?_⟩
    · unfold valueTypeProps valueLangProps
      split <;> split <;> simp [lookupEntries]
    · intro lv h hstr hobj
      have hlp : valueLangProps kvs [("@value", Json.obj [])] =
          [("@value", Json.obj [])] := by
        unfold valueLangProps
        rw [h]
        cases lv with
        | str s => exact absurd rfl (hstr s)
        | obj l =>
          cases l with
          | nil => exact absurd rfl hobj
          | cons e rest => rfl
        | _ => rfl
      rw [hlp]
      exact hasKey_valueTypeProps_lang kvs
    · intro tv h hstr hobj
      have htp : valueTypeProps kvs (valueLangProps kvs [("@value", Json.obj [])]) =
          valueLangProps kvs [("@value", Json.obj [])] := by
        unfold valueTypeProps
        rw [h]
        cases tv with
        | str s => exact absurd rfl (hstr s)
        | obj l =>
          cases l with
          | nil => exact absurd rfl hobj
          | cons e rest => rfl
        | _ => rfl
      rw [htp]
      exact hasKey_valueLangProps_type kvs
  · intro key flags ctx hv
    cases kvs with
    | nil => simp [hasKey, lookupEntries] at hv
    | cons e rest =>
      rw [process_property_obj_cons]
      simp [has_default_only, hv]

/-- Witness for `value_object_frame_spec` at the value-object frame
`{"@value": {}, "@language": []}`: the array-valued `@language` is
omitted, the branch requires exactly `@value`, and the dispatcher
routes the frame to the value-object translator. -/
theorem value_object_frame_spec_witness :
    process_value_object_frame [("@value", Json.obj []), ("@language", Json.arr [])] =
      Json.obj [("oneOf", Json.arr
        [Json.obj [("type", Json.str "string")],
         Json.obj [("type", Json.str "object"),
           ("properties", Json.obj [("@value", Json.obj [])]),
           ("required", Json.arr [Json.str "@value"])]])] ∧
    process_property "p"
      (Json.obj [("@value", Json.obj []), ("@language", Json.arr [])])
      defaultFlags [] =
      some (process_value_object_frame
        [("@value", Json.obj []), ("@language", Json.arr [])]) := by
  constructor
  · simp [process_value_object_frame, valueTypeProps, valueLangProps, lookupEntries]
  · exact (value_object_frame_spec _).2 "p" defaultFlags []
      (by simp [hasKey, lookupEntries])
